import Mathlib

/-!
Verification development for the chat-request dispatch/orchestration engine
(backend/handlers/chat.ts and collaborators).

The TypeScript source is shallowly embedded: async generators become pure
functions from the outcome of their underlying source (HTTP response, SDK
message stream, Anthropic chunk stream) to the list of stream events they
emit; `process.env` becomes a function `String → Option String`; the
request-abort-controller `Map` becomes a list of request ids.  `JSON.parse`
applied to wire lines is an external library collaborator and is modelled as
an explicit `parse` parameter.
-/

/-- Agent descriptor as carried in `ChatRequest.availableAgents`
(`{id, name, description, isOrchestrator?, apiEndpoint?, workingDirectory?}`). -/
structure Agent where
  id : String
  name : String
  description : String
  isOrchestrator : Bool
  apiEndpoint : Option String
  workingDirectory : Option String
deriving DecidableEq, Repr

/-- OAuth credential bundle (`ChatRequest['claudeAuth']`). -/
structure ClaudeAuth where
  accessToken : String
  refreshToken : String
  expiresAt : Nat
deriving DecidableEq, Repr

/-- The inbound chat request (shared/types.ts `ChatRequest`), restricted to the
fields the handler reads. -/
structure ChatRequest where
  message : String
  requestId : String
  sessionId : Option String
  workingDirectory : Option String
  allowedTools : Option (List String)
  availableAgents : Option (List Agent)
  claudeAuth : Option ClaudeAuth

/-- JS `\w` character class (no flags): ASCII letters, digits, underscore. -/
def isWordChar (c : Char) : Bool :=
  c.isAlpha || c.isDigit || c = '_'

/-- State of the left-to-right scanner equivalent to the global regex
`/@(\w+(?:-\w+)*)/g` used by `shouldUseOrchestrator` and `handleChatRequest`:
either outside a match, just after an `@`, inside the `\w+` part (with the
match text so far, `@` included), or just after a `-` (with the match text
that is already complete, the dash not yet committed). -/
inductive MState where
  | outside
  | atSign
  | inWord (acc : List Char)
  | afterDash (acc : List Char)

/-- One scanner step: next state plus the matches completed by this character.
The regex engine finds leftmost matches, takes `\w+` greedily, then repeats
`-\w+` greedily; a dash not followed by a word character is not part of the
match, and scanning resumes right after each match — exactly these
transitions. -/
def scanStep (st : MState) (c : Char) : MState × List (List Char) :=
  match st with
  | .outside => if c = '@' then (.atSign, []) else (.outside, [])
  | .atSign =>
      if isWordChar c then (.inWord ['@', c], [])
      else if c = '@' then (.atSign, []) else (.outside, [])
  | .inWord acc =>
      if isWordChar c then (.inWord (acc ++ [c]), [])
      else if c = '-' then (.afterDash acc, [])
      else if c = '@' then (.atSign, [acc])
      else (.outside, [acc])
  | .afterDash acc =>
      if isWordChar c then (.inWord (acc ++ ['-', c]), [])
      else if c = '@' then (.atSign, [acc])
      else (.outside, [acc])

/-- Matches completed by the end of input. -/
def scanFinish : MState → List (List Char)
  | .inWord acc => [acc]
  | .afterDash acc => [acc]
  | _ => []

/-- Run the scanner over the remaining characters. -/
def scanMentions (st : MState) : List Char → List (List Char)
  | [] => scanFinish st
  | c :: cs =>
      let p := scanStep st c
      p.2 ++ scanMentions p.1 cs

/-- Model of `message.match(/@(\w+(?:-\w+)*)/g)` — the list of matched substrings,
each including its leading `@` (the regex `match` result; `null` is the empty
list, distinguished only through `.length` in the source). -/
def mentionMatches (s : String) : List String :=
  (scanMentions .outside s.toList).map (fun l => String.mk l)

/-- Model of `matches[0].substring(1)` — drop the leading `@` of a match. -/
def dropFirstChar (s : String) : String :=
  match s.toList with
  | [] => ""
  | _ :: cs => String.mk cs

/-- Embedding of `shouldUseOrchestrator(message, availableAgents)`.  The registry lookup
`globalRegistry.getProviderForAgent("orchestrator")?.id` is passed in as
`orchestratorProviderId`. -/
def shouldUseOrchestrator (orchestratorProviderId : Option String)
    (message : String) (availableAgents : Option (List Agent)) : Bool :=
  if orchestratorProviderId = some "anthropic" then
    match availableAgents with
    | some agents =>
        if 0 < agents.length then decide (1 < (mentionMatches message).length)
        else false
    | none => false
  else false

/-- The three execution strategies `handleChatRequest` can choose between. -/
inductive Strategy where
  | loc
  | remoteSingle (agent : Agent)
  | orchestrate
deriving DecidableEq, Repr

/-- Whether a strategy is the remote single-agent delegation. -/
def strategyIsRemote : Strategy → Bool
  | .remoteSingle _ => true
  | _ => false

/-- The routing decision made inside `handleChatRequest`'s stream `start`:
`shouldUseOrchestrator`, then — only inside that branch — the re-match of
mentions, the single-mention check, the worker filter and the id lookup
choosing between `executeAgentHttpRequest` and `executeOrchestratorWorkflow`;
otherwise `executeClaudeCommand`. -/
def selectStrategy (orchId : Option String) (req : ChatRequest) : Strategy :=
  if shouldUseOrchestrator orchId req.message req.availableAgents then
    match mentionMatches req.message, req.availableAgents with
    | [m], some agents =>
        match (agents.filter (fun a => !a.isOrchestrator)).find?
            (fun a => a.id == dropFirstChar m) with
        | some agent => Strategy.remoteSingle agent
        | none => Strategy.orchestrate
    | _, _ => Strategy.orchestrate
  else Strategy.loc

theorem shouldUseOrchestrator_mentions (oid : Option String) (msg : String)
    (oag : Option (List Agent)) (h : shouldUseOrchestrator oid msg oag = true) :
    1 < (mentionMatches msg).length := by
  unfold shouldUseOrchestrator at h
  split at h
  · cases oag with
    | none => simp at h
    | some agents =>
        simp only at h
        split at h
        · exact of_decide_eq_true h
        · simp at h
  · simp at h

/-- The concrete request of the §8 scenario: a single mention of a known,
endpoint-bearing worker agent. -/
def dbAgent : Agent :=
  { id := "db-agent", name := "DB Agent", description := "database agent",
    isOrchestrator := false, apiEndpoint := some "http://peer",
    workingDirectory := some "/srv/db" }

/-- The request `{message: "@db-agent do X", requestId: "r1", availableAgents: [db-agent]}`. -/
def c1Request : ChatRequest :=
  { message := "@db-agent do X", requestId := "r1", sessionId := none,
    workingDirectory := none, allowedTools := none,
    availableAgents := some [dbAgent], claudeAuth := none }

/-- Claim C1 (code bug): a request with exactly one mention naming a known,
endpoint-bearing, non-orchestrator agent, with an anthropic orchestrator
configured, is claimed to select the RemoteSingle strategy
(`executeAgentHttpRequest`).  The code instead routes it to the local
executor: `shouldUseOrchestrator` returns true only for more than one
mention, so with one mention the handler takes its else-branch
(`executeClaudeCommand`), and the single-mention delegation branch nested
under `useOrchestrator` is unreachable for every input. -/
theorem c1_single_mention_routes_local :
    selectStrategy (some "anthropic") c1Request = Strategy.loc ∧
    ∀ (oid : Option String) (req : ChatRequest),
      strategyIsRemote (selectStrategy oid req) = false := by
  constructor
  · decide
  · intro oid req
    unfold selectStrategy
    split
    · rename_i husk
      have hlen := shouldUseOrchestrator_mentions oid req.message req.availableAgents husk
      rcases hm : mentionMatches req.message with _ | ⟨m, _ | ⟨m2, rest⟩⟩
      · simp [hm, strategyIsRemote]
      · rw [hm] at hlen; simp at hlen
      · cases req.availableAgents <;> simp [hm, strategyIsRemote]
    · rfl

/-- Claim C4: with more than one mention token, a non-empty availableAgents
list, and an anthropic orchestrator configured, the handler selects the
Orchestrate strategy (`executeOrchestratorWorkflow`). -/
theorem c4_multi_mention_orchestrates (req : ChatRequest) (agents : List Agent)
    (hag : req.availableAgents = some agents) (hne : agents ≠ [])
    (hm : 1 < (mentionMatches req.message).length) :
    selectStrategy (some "anthropic") req = Strategy.orchestrate := by
  have hlen : 0 < agents.length := by
    cases agents with
    | nil => exact absurd rfl hne
    | cons a l => simp
  have husk : shouldUseOrchestrator (some "anthropic") req.message req.availableAgents = true := by
    unfold shouldUseOrchestrator
    rw [hag]
    simp [hlen, hm]
  unfold selectStrategy
  rw [if_pos husk]
  rcases hmm : mentionMatches req.message with _ | ⟨m, _ | ⟨m2, rest⟩⟩
  · simp
  · rw [hmm] at hm; simp at hm
  · rfl

/-- Two worker agents for the multi-mention scenario. -/
def agentA : Agent :=
  { id := "a", name := "A", description := "agent a", isOrchestrator := false,
    apiEndpoint := some "http://a", workingDirectory := none }

/-- Second worker agent for the multi-mention scenario. -/
def agentB : Agent :=
  { id := "b", name := "B", description := "agent b", isOrchestrator := false,
    apiEndpoint := some "http://b", workingDirectory := none }

/-- The §8 scenario request `"@a @b do Y"` with two worker agents. -/
def c4Request : ChatRequest :=
  { message := "@a @b do Y", requestId := "r2", sessionId := none,
    workingDirectory := none, allowedTools := none,
    availableAgents := some [agentA, agentB], claudeAuth := none }

/-- Witness for C4 at the concrete scenario `"@a @b do Y"`. -/
theorem c4_witness :
    selectStrategy (some "anthropic") c4Request = Strategy.orchestrate :=
  c4_multi_mention_orchestrates c4Request [agentA, agentB] rfl (by decide)
    (by decide)

/-- The `StreamResponse` wire union (shared/types.ts):
`claude_json(data)`, `text_delta(content)`, `done`, `error(error)`,
`aborted`.  The payload type of `claude_json` varies per producer, so it is a
type parameter. -/
inductive SEvent (δ : Type) where
  | claude_json (data : δ)
  | text_delta (content : String)
  | done
  | error (msg : String)
  | aborted
deriving DecidableEq, Repr

/-- Terminal events of the protocol: `done`, `error`, `aborted`. -/
def isTerminal {δ : Type} : SEvent δ → Bool
  | .done => true
  | .error _ => true
  | .aborted => true
  | _ => false

/-- The remote delegate's early-exit test
(`streamResponse.type === "done" || streamResponse.type === "error"`). -/
def isDoneOrError {δ : Type} : SEvent δ → Bool
  | .done => true
  | .error _ => true
  | _ => false

/-- True iff `evs` contains no terminal event. -/
def allNonTerminal {δ : Type} (evs : List (SEvent δ)) : Bool :=
  evs.all (fun e => !isTerminal e)

/-- True iff `evs` ends with a terminal event and contains no other terminal event —
the protocol invariant "exactly one terminal event, nothing follows it". -/
def terminalOk {δ : Type} : List (SEvent δ) → Bool
  | [] => false
  | [e] => isTerminal e
  | e :: rest => !isTerminal e && terminalOk rest

/-- A thrown JS exception, abstracted to its `name` and `message`.  The
`AbortError` raised on `AbortController.abort` (and the `AbortError` class of
the Claude Code SDK) has `name = "AbortError"`; plain `Error` has
`name = "Error"`. -/
structure Exn where
  name : String
  message : String
deriving DecidableEq, Repr

/-- JS whitespace as far as `String.prototype.trim` is concerned, for the
characters that can occur here. -/
def isJsWhitespace (c : Char) : Bool :=
  c = ' ' || c = '\t' || c = '\n' || c = '\r' || c = '\x0c' || c = '\x0b'

/-- Truthiness of `line.trim()`: the line has a non-whitespace character. -/
def hasNonWS (s : String) : Bool :=
  s.toList.any (fun c => !isJsWhitespace c)

/-- Model of `chunk.split('\n')` on the character list, keeping empty pieces. -/
def splitNl : List Char → List Char → List (List Char)
  | [], acc => [acc.reverse]
  | c :: cs, acc =>
      if c = '\n' then acc.reverse :: splitNl cs []
      else splitNl cs (c :: acc)

/-- Model of `chunk.split('\n').filter(line => line.trim())` — the lines of one chunk
the read loop examines. -/
def linesOf (s : String) : List String :=
  ((splitNl s.toList []).map (fun l => String.mk l)).filter hasNonWS

/-- The remote delegate's inner for-loop over the lines of one chunk:
unparseable lines are skipped; a parsed event is yielded; after yielding a
`done` or `error` event the generator returns.  Result: the yielded events
and whether the early `return` fired. -/
def runLines {δ : Type} (parse : String → Option (SEvent δ)) :
    List String → List (SEvent δ) × Bool
  | [] => ([], false)
  | l :: ls =>
      match parse l with
      | none => runLines parse ls
      | some ev =>
          if isDoneOrError ev then ([ev], true)
          else
            let p := runLines parse ls
            (ev :: p.1, p.2)

/-- One observation of the remote delegate's read loop: either a decoded
chunk string arrived, or the awaited read raised (the 30s per-chunk timeout
`Error`, or an `AbortError` when the request's controller fires). -/
inductive ReadEvent where
  | chunk (s : String)
  | raised (e : Exn)

/-- How the remote delegate's while-loop ended. -/
inductive LoopExit where
  | finished
  | earlyReturn
  | threw (e : Exn)
deriving DecidableEq, Repr

/-- The remote delegate's while-loop over reads: each chunk is decoded, split
and processed independently (no partial-line state survives a chunk
boundary); a raised read ends the loop exceptionally; list exhaustion is
`done: true`. -/
def runChunks {δ : Type} (parse : String → Option (SEvent δ)) :
    List ReadEvent → List (SEvent δ) × LoopExit
  | [] => ([], .finished)
  | .raised e :: _ => ([], .threw e)
  | .chunk s :: rest =>
      let p := runLines parse (linesOf s)
      if p.2 then (p.1, .earlyReturn)
      else
        let q := runChunks parse rest
        (p.1 ++ q.1, q.2)

/-- Outcome of the delegate's `fetch` to `{endpoint}/api/chat`: the fetch
itself rejected, or a response arrived with a status, `statusText`, an error
body text (read only on non-2xx) and — when present — a body to stream. -/
inductive FetchOutcome where
  | fetchFailure (e : Exn)
  | response (status : Nat) (statusText : String) (errorBody : String)
      (body : Option (List ReadEvent))

/-- Model of `response.ok`: status in the 2xx range. -/
def okStatus (status : Nat) : Bool :=
  200 ≤ status && status < 300

/-- The message of the error thrown for a non-2xx response: 401/403 become an
authentication error naming the agent, ≥ 500 a server error carrying the
body, anything else a generic HTTP error. -/
def httpErrorMessage (agentId : String) (status : Nat)
    (statusText errorBody : String) : String :=
  if status = 401 ∨ status = 403 then
    "Authentication failed for agent " ++ agentId ++
      ". Please check OAuth credentials. Status: " ++ toString status
  else if 500 ≤ status then
    "Agent " ++ agentId ++ " server error (" ++ toString status ++ "): " ++
      errorBody
  else
    "HTTP error from agent " ++ agentId ++ "! status: " ++ toString status ++
      " - " ++ statusText

/-- The full event sequence of `executeAgentHttpRequest` for one run.  Every
throw lands in the surrounding catch, which yields `aborted` for an
`AbortError` and `error(message)` otherwise; a loop that ends by peer EOF
appends the delegate's own `done`; an early return yields nothing more. -/
def executeAgentHttpRequestEvents {δ : Type}
    (parse : String → Option (SEvent δ)) (agentId : String)
    (o : FetchOutcome) : List (SEvent δ) :=
  match o with
  | .fetchFailure e =>
      if e.name = "AbortError" then [.aborted] else [.error e.message]
  | .response status statusText errorBody body =>
      if !okStatus status then
        [.error (httpErrorMessage agentId status statusText errorBody)]
      else
        match body with
        | none => [.error "No response body from agent endpoint"]
        | some chunks =>
            match runChunks parse chunks with
            | (evs, .finished) => evs ++ [.done]
            | (evs, .earlyReturn) => evs
            | (evs, .threw e) =>
                evs ++ (if e.name = "AbortError" then [.aborted]
                        else [.error e.message])

/-- True iff `hay` starts with `needle`. -/
def charsStartWith : List Char → List Char → Bool
  | _, [] => true
  | [], _ :: _ => false
  | c :: cs, d :: ds => c = d && charsStartWith cs ds

/-- Model of `hay.includes(needle)` on character lists. -/
def charsContains (needle : List Char) : List Char → Bool
  | [] => needle.isEmpty
  | c :: cs => charsStartWith (c :: cs) needle || charsContains needle cs

/-- Model of JS `errorMessage.includes(pattern)`. -/
def containsSub (hay needle : String) : Bool :=
  charsContains needle.toList hay.toList

/-- Embedding of `executeClaudeCommand`'s rewriting of messages that look like
authentication failures, preserving the original detail. -/
def rewriteAuthErrorMessage (m : String) : String :=
  if containsSub m "exit with code 1" || containsSub m "authentication" then
    "Claude Code authentication failed. Please ensure valid OAuth credentials are provided. Original error: " ++ m
  else m

/-- How the SDK `query` stream of the local executor ended: normal
completion, or a throw (an SDK `AbortError` when the request's controller
fires, or any other failure). -/
inductive LocalOutcome where
  | completed
  | threw (e : Exn)

/-- The event sequence of `executeClaudeCommand`: each SDK message is
re-emitted as `claude_json`, completion appends `done`; a throw is caught,
yielding `aborted` for the SDK's `AbortError` and a (possibly rewritten)
`error` otherwise.  `sdkMsgs` are the messages the SDK delivered before the
stream ended; their payloads stay opaque strings. -/
def executeClaudeCommandEvents (sdkMsgs : List String) (o : LocalOutcome) :
    List (SEvent String) :=
  match o with
  | .completed => sdkMsgs.map SEvent.claude_json ++ [.done]
  | .threw e =>
      sdkMsgs.map SEvent.claude_json ++
        (if e.name = "AbortError" then [.aborted]
         else [.error (rewriteAuthErrorMessage e.message)])

theorem allNonTerminal_append {δ : Type} (a b : List (SEvent δ)) :
    allNonTerminal (a ++ b) = (allNonTerminal a && allNonTerminal b) := by
  simp [allNonTerminal, List.all_append]

theorem terminalOk_append_single {δ : Type} (a : List (SEvent δ))
    (t : SEvent δ) (ha : allNonTerminal a = true) (ht : isTerminal t = true) :
    terminalOk (a ++ [t]) = true := by
  induction a with
  | nil => simpa [terminalOk]
  | cons e rest ih =>
      have he : isTerminal e = false := by
        have := ha
        simp [allNonTerminal] at this
        simpa using this.1
      have hrest : allNonTerminal rest = true := by
        have := ha
        simp [allNonTerminal] at this
        simpa [allNonTerminal] using this.2
      have := ih hrest
      cases hr : rest ++ [t] with
      | nil => exact absurd hr (by simp)
      | cons x xs =>
          simp only [List.cons_append, hr, terminalOk]
          rw [← hr, this, he]
          rfl

theorem terminalOk_append {δ : Type} (a b : List (SEvent δ))
    (ha : allNonTerminal a = true) (hb : terminalOk b = true) :
    terminalOk (a ++ b) = true := by
  induction a with
  | nil => simpa
  | cons e rest ih =>
      have he : isTerminal e = false := by
        have := ha
        simp [allNonTerminal] at this
        simpa using this.1
      have hrest : allNonTerminal rest = true := by
        have := ha
        simp [allNonTerminal] at this
        simpa [allNonTerminal] using this.2
      have hrec := ih hrest
      have hbne : b ≠ [] := by
        intro h
        rw [h] at hb
        simp [terminalOk] at hb
      cases hr : rest ++ b with
      | nil =>
          rcases List.append_eq_nil.mp hr with ⟨_, h2⟩
          exact absurd h2 hbne
      | cons x xs =>
          simp only [List.cons_append, hr, terminalOk]
          rw [← hr, hrec, he]
          rfl

theorem runLines_cons_none {δ : Type} (parse : String → Option (SEvent δ))
    (l : String) (ls : List String) (h : parse l = none) :
    runLines parse (l :: ls) = runLines parse ls := by
  simp only [runLines, h]

theorem runLines_cons_stop {δ : Type} (parse : String → Option (SEvent δ))
    (l : String) (ls : List String) (ev : SEvent δ) (h : parse l = some ev)
    (hde : isDoneOrError ev = true) :
    runLines parse (l :: ls) = ([ev], true) := by
  simp [runLines, h, hde]

theorem runLines_cons_yield {δ : Type} (parse : String → Option (SEvent δ))
    (l : String) (ls : List String) (ev : SEvent δ) (h : parse l = some ev)
    (hde : isDoneOrError ev = false) :
    runLines parse (l :: ls) =
      (ev :: (runLines parse ls).1, (runLines parse ls).2) := by
  simp only [runLines, h, hde, Bool.false_eq_true, if_false]

theorem runChunks_cons_chunk {δ : Type} (parse : String → Option (SEvent δ))
    (s : String) (rest : List ReadEvent) :
    runChunks parse (.chunk s :: rest) =
      (if (runLines parse (linesOf s)).2 then
        ((runLines parse (linesOf s)).1, .earlyReturn)
       else ((runLines parse (linesOf s)).1 ++ (runChunks parse rest).1,
             (runChunks parse rest).2)) := by
  cases h : (runLines parse (linesOf s)).2 <;> simp [runChunks, h]

theorem runLines_no_aborted {δ : Type} (parse : String → Option (SEvent δ))
    (hp : ∀ s, parse s ≠ some SEvent.aborted) (ls : List String) :
    ((runLines parse ls).2 = false → allNonTerminal (runLines parse ls).1 = true) ∧
    ((runLines parse ls).2 = true → terminalOk (runLines parse ls).1 = true) := by
  induction ls with
  | nil => simp [runLines, allNonTerminal]
  | cons l ls ih =>
      cases hpl : parse l with
      | none => rw [runLines_cons_none parse l ls hpl]; exact ih
      | some ev =>
          by_cases hde : isDoneOrError ev = true
          · rw [runLines_cons_stop parse l ls ev hpl hde]
            constructor
            · intro h; simp at h
            · intro _
              cases ev <;> simp_all [isDoneOrError, isTerminal, terminalOk]
          · have hde' : isDoneOrError ev = false := by simpa using hde
            have hnt : isTerminal ev = false := by
              cases ev <;> simp_all [isDoneOrError, isTerminal]
            rw [runLines_cons_yield parse l ls ev hpl hde']
            constructor
            · intro h
              simp only at h
              have := ih.1 h
              simp only [allNonTerminal, List.all_cons, hnt]
              simpa [allNonTerminal] using this
            · intro h
              simp only at h
              have htl := ih.2 h
              cases hr : (runLines parse ls).1 with
              | nil => rw [hr] at htl; simp [terminalOk] at htl
              | cons x xs =>
                  rw [hr] at htl
                  show terminalOk (ev :: x :: xs) = true
                  simp only [terminalOk]
                  rw [htl, hnt]
                  rfl

theorem runChunks_no_aborted {δ : Type} (parse : String → Option (SEvent δ))
    (hp : ∀ s, parse s ≠ some SEvent.aborted) (chs : List ReadEvent) :
    ((runChunks parse chs).2 = .earlyReturn →
        terminalOk (runChunks parse chs).1 = true) ∧
    ((runChunks parse chs).2 ≠ .earlyReturn →
        allNonTerminal (runChunks parse chs).1 = true) := by
  induction chs with
  | nil => simp [runChunks, allNonTerminal]
  | cons c rest ih =>
      cases c with
      | raised e => simp [runChunks, allNonTerminal]
      | chunk s =>
          rw [runChunks_cons_chunk]
          by_cases hstop : (runLines parse (linesOf s)).2 = true
          · simp only [hstop, if_pos rfl]
            constructor
            · intro _
              exact (runLines_no_aborted parse hp (linesOf s)).2 hstop
            · intro h; simp at h
          · have hstop' : (runLines parse (linesOf s)).2 = false := by
              simpa using hstop
            have hhead := (runLines_no_aborted parse hp (linesOf s)).1 hstop'
            simp only [hstop', Bool.false_eq_true, if_false]
            constructor
            · intro h
              exact terminalOk_append _ _ hhead (ih.1 h)
            · intro h
              rw [allNonTerminal_append, hhead, ih.2 h]
              rfl

/-- Accumulating `input` of a tool-use block: a raw partial-JSON string
during streaming, or the structured object (`α` is the parsed plan type)
after a successful parse on block close. -/
inductive ToolInput (α : Type) where
  | str (s : String)
  | obj (v : α)
deriving DecidableEq, Repr

/-- One entry of the orchestrator's `currentContent` accumulator: a text
block, a tool-use block, or any other block kind (kept as pushed, never
touched by deltas). -/
inductive ContentBlock (α : Type) where
  | text (text : String)
  | toolUse (input : ToolInput α)
  | other
deriving DecidableEq, Repr

/-- The orchestrator's `currentMessage` skeleton (`message_start` fields plus
the fields `message_delta` updates; `usage` stays opaque). -/
structure OrchMessage (α : Type) where
  id : String
  role : String
  model : String
  stop_reason : Option String
  stop_sequence : Option String
  usage : Option String
  content : List (ContentBlock α)
deriving DecidableEq, Repr

/-- Accumulator state of the orchestrator's chunk loop:
`currentMessage` / `currentContent`. -/
structure OrchState (α : Type) where
  currentMessage : Option (OrchMessage α)
  currentContent : List (ContentBlock α)
deriving DecidableEq, Repr

/-- One Anthropic streaming chunk, restricted to the variants the loop
reads.  `jsonDelta` is an `input_json_delta` carrying `partial_json`. -/
inductive AChunk (α : Type) where
  | messageStart (m : OrchMessage α)
  | contentBlockStart (b : ContentBlock α)
  | textDelta (t : String)
  | jsonDelta (j : String)
  | messageDelta (stop_reason stop_sequence usage : Option String)
  | contentBlockStop
  | messageStop

/-- Model of `currentContent[currentContent.length - 1] = f(...)` — mutate the last
element if any. -/
def modifyLastBlock {α : Type} (f : ContentBlock α → ContentBlock α) :
    List (ContentBlock α) → List (ContentBlock α)
  | [] => []
  | [b] => [f b]
  | b :: bs => b :: modifyLastBlock f bs

/-- The orchestrator's claude_json payloads: the synthetic system-init event
and the assistant-message event. -/
inductive OrchCJ (α : Type) where
  | systemInit (session_id : String) (model : String) (tools : List String)
  | assistantMsg (msg : OrchMessage α) (session_id : String)
deriving DecidableEq, Repr

/-- On `content_block_delta`/`text_delta`: append to a text block, leave any
other block untouched. -/
def applyTextDelta {α : Type} (t : String) : ContentBlock α → ContentBlock α
  | .text s => .text (s ++ t)
  | blk => blk

/-- On `content_block_delta`/`input_json_delta`: concatenate `partial_json`
onto a tool-use block's raw string (resetting a non-string input to `""`
first, as the source does), leave any other block untouched. -/
def applyJsonDelta {α : Type} (j : String) : ContentBlock α → ContentBlock α
  | .toolUse (.str s) => .toolUse (.str (s ++ j))
  | .toolUse (.obj _) => .toolUse (.str ("" ++ j))
  | blk => blk

/-- On `content_block_stop`: parse a tool-use block's accumulated string when
it is non-blank; on parse failure the raw string is retained. -/
def closeBlock {α : Type} (parse : String → Option α) :
    ContentBlock α → ContentBlock α
  | .toolUse (.str s) =>
      if hasNonWS s then
        match parse s with
        | some v => .toolUse (.obj v)
        | none => .toolUse (.str s)
      else .toolUse (.str s)
  | blk => blk

/-- On `content_block_start`: push the block, with a tool-use input initialized
to the empty string. -/
def startBlock {α : Type} : ContentBlock α → ContentBlock α
  | .toolUse _ => .toolUse (.str "")
  | blk => blk

/-- One iteration of `executeOrchestratorWorkflow`'s `for await` loop:
given the accumulator state and one chunk, the next state and the events
yielded.  `parse` is `JSON.parse` on the accumulated tool input;
`sessionId`/`nowStop` feed the `sessionId || anthropic-${Date.now()}`
fallback of the assistant event. -/
def processOrchChunk {α : Type} (parse : String → Option α)
    (sessionId : Option String) (nowStop : String) (st : OrchState α) :
    AChunk α → OrchState α × List (SEvent (OrchCJ α))
  | .messageStart m =>
      let cm : OrchMessage α :=
        { id := m.id
          role := m.role
          model := m.model
          stop_reason := none
          stop_sequence := none
          usage := m.usage
          content := [] }
      ({ st with currentMessage := some cm }, [])
  | .contentBlockStart b =>
      ({ st with currentContent := st.currentContent ++ [startBlock b] }, [])
  | .textDelta t =>
      let cc := modifyLastBlock (applyTextDelta t) st.currentContent
      ({ st with currentContent := cc }, [])
  | .jsonDelta j =>
      let cc := modifyLastBlock (applyJsonDelta j) st.currentContent
      ({ st with currentContent := cc }, [])
  | .messageDelta sr ssq u =>
      match st.currentMessage with
      | some cm =>
          let cm' : OrchMessage α :=
            { cm with
              stop_reason := sr
              stop_sequence := ssq
              usage := (match u with | some uu => some uu | none => cm.usage) }
          ({ st with currentMessage := some cm' }, [])
      | none => (st, [])
  | .contentBlockStop =>
      let cc := modifyLastBlock (closeBlock parse) st.currentContent
      ({ st with currentContent := cc }, [])
  | .messageStop =>
      match st.currentMessage with
      | some cm =>
          let cm' : OrchMessage α := { cm with content := st.currentContent }
          ({ currentMessage := some cm', currentContent := st.currentContent },
           [.claude_json (.assistantMsg cm'
              (sessionId.getD ("anthropic-" ++ nowStop)))])
      | none => (st, [])

/-- The whole chunk loop: events in production order plus the final state. -/
def processOrchChunks {α : Type} (parse : String → Option α)
    (sessionId : Option String) (nowStop : String) (st : OrchState α) :
    List (AChunk α) → List (SEvent (OrchCJ α)) × OrchState α
  | [] => ([], st)
  | c :: cs =>
      let p := processOrchChunk parse sessionId nowStop st c
      let q := processOrchChunks parse sessionId nowStop p.1 cs
      (p.2 ++ q.1, q.2)

/-- How the orchestrator's Anthropic call went: the `messages.create` call
itself rejected (before any yield), the chunk stream completed, or the
stream threw mid-way after delivering the given chunks. -/
inductive OrchOutcome where
  | createFailed (e : Exn)
  | completed
  | threwMid (e : Exn)

/-- Truthiness of `process.env.ANTHROPIC_API_KEY || process.env.CLAUDE_API_KEY`. -/
def jsTruthy : Option String → Bool
  | none => false
  | some s => s ≠ ""

/-- The initial accumulator state (`currentMessage = null`,
`currentContent = []`). -/
def orchInit {α : Type} : OrchState α := ⟨none, []⟩

/-- The event sequence of `executeOrchestratorWorkflow`: a missing API key
throws before anything is yielded; otherwise the synthetic system-init event
precedes the loop's events and `done`; every throw lands in the catch, which
yields `error(message)` unconditionally — it never inspects the exception,
and the request's AbortController, though registered, is not passed to the
Anthropic call. -/
def executeOrchestratorWorkflowEvents {α : Type} (parse : String → Option α)
    (apiKey : Option String) (sessionId : Option String)
    (nowInit nowStop : String) (chunks : List (AChunk α)) (o : OrchOutcome) :
    List (SEvent (OrchCJ α)) :=
  if jsTruthy apiKey then
    match o with
    | .createFailed e => [.error e.message]
    | .completed =>
        .claude_json (.systemInit (sessionId.getD ("anthropic-" ++ nowInit))
            "claude-sonnet-4-20250514" ["orchestrate_execution"]) ::
          (processOrchChunks parse sessionId nowStop orchInit chunks).1 ++
            [.done]
    | .threwMid e =>
        .claude_json (.systemInit (sessionId.getD ("anthropic-" ++ nowInit))
            "claude-sonnet-4-20250514" ["orchestrate_execution"]) ::
          (processOrchChunks parse sessionId nowStop orchInit chunks).1 ++
            [.error e.message]
  else
    ["ANTHROPIC_API_KEY environment variable is required for orchestrator mode"
      |> SEvent.error]

/-- The process-wide `requestAbortControllers : Map<string, AbortController>`
abstracted to the set of registered request ids. -/
def AbortMap := List String

/-- Model of `requestAbortControllers.set(requestId, controller)`. -/
def AbortMap.register (m : AbortMap) (rid : String) : AbortMap :=
  rid :: m.filter (fun x => !(x == rid))

/-- Model of `requestAbortControllers.has(requestId)`. -/
def AbortMap.holds (m : AbortMap) (rid : String) : Bool :=
  m.any (fun x => x == rid)

/-- Model of `requestAbortControllers.delete(requestId)`. -/
def AbortMap.remove (m : AbortMap) (rid : String) : AbortMap :=
  m.filter (fun x => !(x == rid))

/-- The `finally` block shared by all three strategies:
`if (requestAbortControllers.has(requestId)) requestAbortControllers.delete(requestId)`. -/
def AbortMap.finallyCleanup (m : AbortMap) (rid : String) : AbortMap :=
  if AbortMap.holds m rid then AbortMap.remove m rid else m

/-- A full run of `executeAgentHttpRequest`: the controller is registered at
the top of the `try`, the events are produced, and the `finally` removes the
registration on every exit path. -/
def executeAgentHttpRequestRun {δ : Type} (parse : String → Option (SEvent δ))
    (agentId : String) (o : FetchOutcome) (rid : String) (m : AbortMap) :
    List (SEvent δ) × AbortMap :=
  let m1 := AbortMap.register m rid
  (executeAgentHttpRequestEvents parse agentId o,
   AbortMap.finallyCleanup m1 rid)

/-- A full run of `executeClaudeCommand` (registration happens after the
auth preparation, whose failures are swallowed by an inner catch, so it runs
unconditionally; the outer `finally` removes it on every exit path). -/
def executeClaudeCommandRun (sdkMsgs : List String) (o : LocalOutcome)
    (rid : String) (m : AbortMap) : List (SEvent String) × AbortMap :=
  let m1 := AbortMap.register m rid
  (executeClaudeCommandEvents sdkMsgs o, AbortMap.finallyCleanup m1 rid)

/-- A full run of `executeOrchestratorWorkflow` (registration at the top of
the `try`, removal in the `finally` on every exit path). -/
def executeOrchestratorWorkflowRun {α : Type} (parse : String → Option α)
    (apiKey : Option String) (sessionId : Option String)
    (nowInit nowStop : String) (chunks : List (AChunk α)) (o : OrchOutcome)
    (rid : String) (m : AbortMap) : List (SEvent (OrchCJ α)) × AbortMap :=
  let m1 := AbortMap.register m rid
  (executeOrchestratorWorkflowEvents parse apiKey sessionId nowInit nowStop
      chunks o,
   AbortMap.finallyCleanup m1 rid)

theorem finallyCleanup_register (m : AbortMap) (rid : String) :
    AbortMap.holds (AbortMap.finallyCleanup (AbortMap.register m rid) rid)
      rid = false := by
  have hin : AbortMap.holds (AbortMap.register m rid) rid = true := by
    simp [AbortMap.holds, AbortMap.register]
  rw [AbortMap.finallyCleanup, if_pos hin]
  simp only [AbortMap.holds, AbortMap.remove, AbortMap.register]
  simp [List.any_filter]

/-- Claim C5: for every strategy and every outcome — completion, error, and
cancellation alike — once the run is over, the cancellation registry holds
no entry for the request id. -/
theorem c5_registry_released {δ α : Type}
    (parse : String → Option (SEvent δ)) (parseO : String → Option α)
    (agentId : String) (o : FetchOutcome) (sdkMsgs : List String)
    (ol : LocalOutcome) (apiKey : Option String) (sessionId : Option String)
    (nowInit nowStop : String) (chunks : List (AChunk α)) (oo : OrchOutcome)
    (rid : String) (m : AbortMap) :
    AbortMap.holds (executeAgentHttpRequestRun parse agentId o rid m).2 rid
        = false ∧
    AbortMap.holds (executeClaudeCommandRun sdkMsgs ol rid m).2 rid = false ∧
    AbortMap.holds (executeOrchestratorWorkflowRun parseO apiKey sessionId
        nowInit nowStop chunks oo rid m).2 rid = false :=
  ⟨finallyCleanup_register m rid, finallyCleanup_register m rid,
   finallyCleanup_register m rid⟩

/-- Claim C6: a non-2xx peer response produces exactly one `error` event and
nothing else (no `done`): 401/403 yield the authentication message naming
the agent id and carrying the status; ≥ 500 the server-error message
carrying status and body; any other non-2xx the generic HTTP message. -/
theorem c6_http_error_classification {δ : Type}
    (parse : String → Option (SEvent δ)) (agentId : String) (status : Nat)
    (statusText errorBody : String) (body : Option (List ReadEvent))
    (hnok : okStatus status = false) :
    executeAgentHttpRequestEvents parse agentId
        (.response status statusText errorBody body) =
      [.error (httpErrorMessage agentId status statusText errorBody)] ∧
    ((status = 401 ∨ status = 403) →
      httpErrorMessage agentId status statusText errorBody =
        "Authentication failed for agent " ++ agentId ++
          ". Please check OAuth credentials. Status: " ++ toString status) ∧
    (500 ≤ status →
      httpErrorMessage agentId status statusText errorBody =
        "Agent " ++ agentId ++ " server error (" ++ toString status ++ "): "
          ++ errorBody) ∧
    (¬(status = 401 ∨ status = 403) → ¬500 ≤ status →
      httpErrorMessage agentId status statusText errorBody =
        "HTTP error from agent " ++ agentId ++ "! status: " ++
          toString status ++ " - " ++ statusText) := by
  refine ⟨?_, ?_, ?_, ?_⟩
  · simp [executeAgentHttpRequestEvents, hnok]
  · intro h
    rw [httpErrorMessage, if_pos h]
  · intro h
    have hne : ¬(status = 401 ∨ status = 403) := by omega
    rw [httpErrorMessage, if_neg hne, if_pos h]
  · intro h1 h2
    rw [httpErrorMessage, if_neg h1, if_neg h2]

/-- Witness for C6 at the §8 scenario: HTTP 403 from the peer. -/
theorem c6_witness :
    executeAgentHttpRequestEvents (fun _ => (none : Option (SEvent Nat)))
        "db-agent" (.response 403 "Forbidden" "denied" none) =
      [.error "Authentication failed for agent db-agent. Please check OAuth credentials. Status: 403"] := by
  have h := c6_http_error_classification
    (fun _ => (none : Option (SEvent Nat))) "db-agent" 403 "Forbidden"
    "denied" none (by decide)
  rw [h.1, h.2.1 (Or.inr rfl)]
  rfl

/-- Claim C8: in the remote delegate's read loop, an unparseable line is
skipped (the run over the remaining lines is unchanged — no termination, no
error event), while a parsed `done`/`error` line is yielded and ends the
re-stream at once: the rest of the lines and all remaining chunks are never
examined. -/
theorem c8_read_loop {δ : Type} (parse : String → Option (SEvent δ))
    (l t : String) (ls : List String) (ev : SEvent δ) (s : String)
    (rest : List ReadEvent)
    (hbad : parse l = none)
    (hterm : parse t = some ev) (hde : isDoneOrError ev = true)
    (hstop : (runLines parse (linesOf s)).2 = true) :
    runLines parse (l :: ls) = runLines parse ls ∧
    runLines parse (t :: ls) = ([ev], true) ∧
    runChunks parse (.chunk s :: rest) =
      ((runLines parse (linesOf s)).1, .earlyReturn) := by
  refine ⟨runLines_cons_none parse l ls hbad,
          runLines_cons_stop parse t ls ev hterm hde, ?_⟩
  rw [runChunks_cons_chunk, if_pos hstop]

/-- Concrete line decoder for the C8 witness: the peer's wire format mapped
on two closed lines. -/
def c8parse : String → Option (SEvent Nat)
  | "not-json-line" => none
  | "\x7b\"type\":\"done\"\x7d" => some .done
  | _ => none

/-- Witness for C8: a malformed line is skipped, a `done` line stops the
loop, and a chunk whose line stream stops prevents any read of the next
chunk. -/
theorem c8_witness :
    runLines c8parse ["not json", "\x7b\"type\":\"done\"\x7d"] =
        runLines c8parse ["\x7b\"type\":\"done\"\x7d"] ∧
    runLines c8parse
        ["\x7b\"type\":\"done\"\x7d", "\x7b\"type\":\"done\"\x7d"] =
      ([SEvent.done], true) ∧
    runChunks c8parse
        [.chunk "\x7b\"type\":\"done\"\x7d", .chunk "\x7b\"type\":\"done\"\x7d"] =
      ((runLines c8parse (linesOf "\x7b\"type\":\"done\"\x7d")).1,
        .earlyReturn) := by
  have h := c8_read_loop c8parse "not json" "\x7b\"type\":\"done\"\x7d"
    ["\x7b\"type\":\"done\"\x7d"]
    SEvent.done "\x7b\"type\":\"done\"\x7d" [.chunk "\x7b\"type\":\"done\"\x7d"]
    (by decide) (by decide) (by decide) (by decide)
  exact ⟨h.1, h.2.1, h.2.2⟩

/-- Claim C10 (implicit): each chunk is decoded and split on newlines
independently, so a peer event whose serialized line straddles a chunk
boundary is lost: both fragments fail to parse as JSON, both are skipped,
and the event is never yielded — only the delegate's own fallback `done`
appears.  No partial-line state is carried between chunks. -/
theorem c10_split_line_lost {δ : Type} (parse : String → Option (SEvent δ))
    (agentId statusText errorBody : String) (status : Nat)
    (pre suf : String)
    (hok : okStatus status = true)
    (hpre : parse pre = none) (hsuf : parse suf = none)
    (hlp : linesOf pre = [pre]) (hls : linesOf suf = [suf]) :
    executeAgentHttpRequestEvents parse agentId
        (.response status statusText errorBody
          (some [.chunk pre, .chunk suf])) = [SEvent.done] := by
  have hpre' : runLines parse (linesOf pre) = ([], false) := by
    rw [hlp, runLines_cons_none parse pre [] hpre]
    rfl
  have hsuf' : runLines parse (linesOf suf) = ([], false) := by
    rw [hls, runLines_cons_none parse suf [] hsuf]
    rfl
  have hc : runChunks parse [.chunk pre, .chunk suf] = ([], .finished) := by
    rw [runChunks_cons_chunk, hpre']
    simp only [Bool.false_eq_true, if_false, List.nil_append]
    rw [runChunks_cons_chunk, hsuf']
    simp [runChunks]
  simp [executeAgentHttpRequestEvents, hok, hc]

/-- Concrete line decoder for the C10 witness: `JSON.parse` on the one full
serialized line; both fragments of the split line are not valid JSON. -/
def c10parse : String → Option (SEvent Nat)
  | "\x7b\"type\":\"claude_json\",\"data\":7\x7d" => some (.claude_json 7)
  | _ => none

/-- Witness for C10: the line split as `{"type":"claude_js` ⧺
`on","data":7\x7d` across two chunks is dropped and only the fallback `done`
is emitted. -/
theorem c10_witness :
    executeAgentHttpRequestEvents c10parse "db-agent"
        (.response 200 "OK" ""
          (some [.chunk "\x7b\"type\":\"claude_js",
                 .chunk "on\",\"data\":7\x7d"])) = [SEvent.done] :=
  c10_split_line_lost c10parse "db-agent" "OK" "" 200
    "\x7b\"type\":\"claude_js" "on\",\"data\":7\x7d" (by decide) (by decide)
    (by decide) (by decide) (by decide)

/-- Concrete line decoder for the C3 counterexample: `JSON.parse` on a peer
`aborted` line. -/
def c3parse : String → Option (SEvent Nat)
  | "\x7b\"type\":\"aborted\"\x7d" => some .aborted
  | _ => none

/-- Counterexample to claim C3: when the peer stream consists of an
`aborted` line and then ends, the remote delegate re-emits `aborted`, keeps
reading (its early exit fires only for `done`/`error`), and appends its own
`done` at end of stream — two terminal events, with `done` following the
terminal `aborted`. -/
theorem c3_counterexample :
    executeAgentHttpRequestEvents c3parse "db-agent"
        (.response 200 "OK" ""
          (some [.chunk "\x7b\"type\":\"aborted\"\x7d"])) =
      [SEvent.aborted, SEvent.done] ∧
    terminalOk (executeAgentHttpRequestEvents c3parse "db-agent"
        (.response 200 "OK" ""
          (some [.chunk "\x7b\"type\":\"aborted\"\x7d"]))) = false := by
  constructor <;> decide

theorem claude_json_map_nonterminal {δ : Type} (l : List δ) :
    allNonTerminal (l.map (SEvent.claude_json)) = true := by
  simp [allNonTerminal, List.all_map]
  intro x _
  rfl

theorem processOrchChunk_nonterminal {α : Type} (parse : String → Option α)
    (sessionId : Option String) (nowStop : String) (st : OrchState α)
    (c : AChunk α) :
    allNonTerminal (processOrchChunk parse sessionId nowStop st c).2 = true := by
  cases c <;> cases hcm : st.currentMessage <;>
    simp [processOrchChunk, hcm, allNonTerminal, isTerminal]

theorem processOrchChunks_nonterminal {α : Type} (parse : String → Option α)
    (sessionId : Option String) (nowStop : String) (st : OrchState α)
    (cs : List (AChunk α)) :
    allNonTerminal (processOrchChunks parse sessionId nowStop st cs).1 = true := by
  induction cs generalizing st with
  | nil => simp [processOrchChunks, allNonTerminal]
  | cons c cs ih =>
      have h1 := processOrchChunk_nonterminal parse sessionId nowStop st c
      show allNonTerminal ((processOrchChunk parse sessionId nowStop st c).2
        ++ (processOrchChunks parse sessionId nowStop
            (processOrchChunk parse sessionId nowStop st c).1 cs).1) = true
      rw [allNonTerminal_append, h1, ih]
      rfl

theorem terminalOk_cons_append {δ : Type} (e : SEvent δ)
    (evs : List (SEvent δ)) (t : SEvent δ) (he : isTerminal e = false)
    (hevs : allNonTerminal evs = true) (ht : isTerminal t = true) :
    terminalOk (e :: (evs ++ [t])) = true := by
  have hne : allNonTerminal (e :: evs) = true := by
    simp only [allNonTerminal, List.all_cons, he]
    simpa [allNonTerminal] using hevs
  have h2 := terminalOk_append_single (e :: evs) t hne ht
  simpa using h2

/-- Amended claim C3: the local executor and the orchestrator planner end
every event sequence with exactly one terminal event and nothing after it;
the remote delegate satisfies the same invariant provided no line of the
peer stream decodes to an `aborted` event — a peer `aborted` line is
re-emitted without ending the loop and the delegate's own `done` can then
follow it (see the counterexample). -/
theorem c3_terminal_amended {δ α : Type} (parse : String → Option (SEvent δ))
    (parseO : String → Option α) (sdkMsgs : List String) (lo : LocalOutcome)
    (agentId : String) (o : FetchOutcome) (apiKey sessionId : Option String)
    (nowInit nowStop : String) (chunks : List (AChunk α)) (oo : OrchOutcome)
    (hp : ∀ s, parse s ≠ some SEvent.aborted) :
    terminalOk (executeClaudeCommandEvents sdkMsgs lo) = true ∧
    terminalOk (executeOrchestratorWorkflowEvents parseO apiKey sessionId
        nowInit nowStop chunks oo) = true ∧
    terminalOk (executeAgentHttpRequestEvents parse agentId o) = true := by
  refine ⟨?_, ?_, ?_⟩
  · cases lo with
    | completed =>
        exact terminalOk_append_single _ SEvent.done
          (claude_json_map_nonterminal sdkMsgs) rfl
    | threw e =>
        by_cases ha : e.name = "AbortError"
        · rw [executeClaudeCommandEvents, if_pos ha]
          exact terminalOk_append_single _ SEvent.aborted
            (claude_json_map_nonterminal sdkMsgs) rfl
        · rw [executeClaudeCommandEvents, if_neg ha]
          exact terminalOk_append_single _
            (SEvent.error (rewriteAuthErrorMessage e.message))
            (claude_json_map_nonterminal sdkMsgs) rfl
  · unfold executeOrchestratorWorkflowEvents
    by_cases hk : jsTruthy apiKey = true
    · rw [if_pos hk]
      cases oo with
      | createFailed e => rfl
      | completed =>
          exact terminalOk_cons_append _ _ SEvent.done rfl
            (processOrchChunks_nonterminal parseO sessionId nowStop
              orchInit chunks) rfl
      | threwMid e =>
          exact terminalOk_cons_append _ _ (SEvent.error e.message) rfl
            (processOrchChunks_nonterminal parseO sessionId nowStop
              orchInit chunks) rfl
    · rw [if_neg hk]
      rfl
  · cases o with
    | fetchFailure e =>
        by_cases ha : e.name = "AbortError"
        · rw [executeAgentHttpRequestEvents, if_pos ha]; rfl
        · rw [executeAgentHttpRequestEvents, if_neg ha]; rfl
    | response status statusText errorBody body =>
        by_cases hok : okStatus status = true
        · simp only [executeAgentHttpRequestEvents]
          rw [show (!okStatus status) = false by rw [hok]; rfl]
          simp only [Bool.false_eq_true, if_false]
          cases body with
          | none => rfl
          | some chunks =>
              rcases hrc : runChunks parse chunks with ⟨evs, ex⟩
              have hr := runChunks_no_aborted parse hp chunks
              rw [hrc] at hr
              dsimp only
              rw [hrc]
              cases ex with
              | finished =>
                  exact terminalOk_append_single evs SEvent.done
                    (hr.2 (by simp)) rfl
              | earlyReturn => exact hr.1 rfl
              | threw e =>
                  by_cases ha : e.name = "AbortError"
                  · have hb := terminalOk_append_single evs SEvent.aborted
                      (hr.2 (by simp)) rfl
                    simpa [ha] using hb
                  · have hb := terminalOk_append_single evs
                      (SEvent.error e.message) (hr.2 (by simp)) rfl
                    simpa [ha] using hb
        · simp only [executeAgentHttpRequestEvents]
          rw [show (!okStatus status) = true by
            rw [show okStatus status = false by simpa using hok]; rfl]
          rfl

/-- Witness for the amended C3 at concrete runs of all three strategies. -/
theorem c3_witness :
    terminalOk (executeClaudeCommandEvents ["m1"] .completed) = true ∧
    terminalOk (executeOrchestratorWorkflowEvents
        (fun _ => (none : Option Nat)) (some "key") none "0" "0" []
        .completed) = true ∧
    terminalOk (executeAgentHttpRequestEvents
        (fun _ => (none : Option (SEvent Nat))) "db-agent"
        (.fetchFailure ⟨"AbortError", "aborted"⟩)) = true :=
  c3_terminal_amended (fun _ => (none : Option (SEvent Nat)))
    (fun _ => (none : Option Nat)) ["m1"] .completed "db-agent"
    (.fetchFailure ⟨"AbortError", "aborted"⟩) (some "key") none "0" "0" []
    .completed (fun _ h => Option.noConfusion h)

/-- Counterexample to claim C2: an abort-shaped exception from the
orchestrator planner's LLM stream terminates the sequence with `error`, not
`aborted` — the planner's catch never inspects the exception (and the
registered AbortController is not even passed to the Anthropic call). -/
theorem c2_counterexample :
    executeOrchestratorWorkflowEvents (fun _ => (none : Option Nat))
        (some "key") none "0" "1" []
        (.threwMid ⟨"AbortError", "Request was aborted."⟩) =
      [SEvent.claude_json (OrchCJ.systemInit "anthropic-0"
          "claude-sonnet-4-20250514" ["orchestrate_execution"]),
       SEvent.error "Request was aborted."] := by
  decide

/-- Amended claim C2: cancellation during the local executor or the remote
delegate (fetch rejection or a read raising `AbortError`) terminates the
stream with `aborted`, never `error`; the orchestrator planner however
terminates with `error e.message` for every mid-stream exception `e`,
abort-shaped ones included. -/
theorem c2_cancellation_amended {δ α : Type}
    (parse : String → Option (SEvent δ)) (parseO : String → Option α)
    (sdkMsgs : List String) (agentId : String) (status : Nat)
    (statusText errorBody : String) (chs : List ReadEvent)
    (evs : List (SEvent δ)) (e e2 : Exn) (apiKey sessionId : Option String)
    (nowInit nowStop : String) (ochunks : List (AChunk α))
    (he : e.name = "AbortError") (hok : okStatus status = true)
    (hrc : runChunks parse chs = (evs, .threw e))
    (hk : jsTruthy apiKey = true) :
    executeClaudeCommandEvents sdkMsgs (.threw e) =
        sdkMsgs.map SEvent.claude_json ++ [SEvent.aborted] ∧
    executeAgentHttpRequestEvents parse agentId (.fetchFailure e) =
        [SEvent.aborted] ∧
    executeAgentHttpRequestEvents parse agentId
        (.response status statusText errorBody (some chs)) =
        evs ++ [SEvent.aborted] ∧
    executeOrchestratorWorkflowEvents parseO apiKey sessionId nowInit nowStop
        ochunks (.threwMid e2) =
      SEvent.claude_json (OrchCJ.systemInit
          (sessionId.getD ("anthropic-" ++ nowInit))
          "claude-sonnet-4-20250514" ["orchestrate_execution"]) ::
        (processOrchChunks parseO sessionId nowStop orchInit ochunks).1 ++
          [SEvent.error e2.message] := by
  refine ⟨?_, ?_, ?_, ?_⟩
  · simp [executeClaudeCommandEvents, he]
  · simp [executeAgentHttpRequestEvents, he]
  · simp only [executeAgentHttpRequestEvents]
    rw [show (!okStatus status) = false by rw [hok]; rfl]
    simp only [Bool.false_eq_true, if_false]
    rw [hrc]
    simp [he]
  · unfold executeOrchestratorWorkflowEvents
    rw [if_pos hk]

/-- Witness for the amended C2 at concrete runs: an abort mid-read of the
remote delegate, an aborted local SDK call, and an abort-shaped orchestrator
failure. -/
theorem c2_witness :
    executeClaudeCommandEvents ["m1"]
        (.threw ⟨"AbortError", "interrupted"⟩) =
      (["m1"].map SEvent.claude_json) ++ [SEvent.aborted] ∧
    executeAgentHttpRequestEvents (fun _ => (none : Option (SEvent Nat)))
        "db-agent" (.fetchFailure ⟨"AbortError", "interrupted"⟩) =
      [SEvent.aborted] ∧
    executeAgentHttpRequestEvents (fun _ => (none : Option (SEvent Nat)))
        "db-agent" (.response 200 "OK" ""
          (some [.raised ⟨"AbortError", "interrupted"⟩])) =
      [] ++ [SEvent.aborted] ∧
    executeOrchestratorWorkflowEvents (fun _ => (none : Option Nat))
        (some "key") none "7" "7" []
        (.threwMid ⟨"AbortError", "interrupted"⟩) =
      SEvent.claude_json (OrchCJ.systemInit
          ((none : Option String).getD ("anthropic-" ++ "7"))
          "claude-sonnet-4-20250514" ["orchestrate_execution"]) ::
        (processOrchChunks (fun _ => (none : Option Nat)) none "7"
            orchInit []).1 ++
          [SEvent.error (Exn.message ⟨"AbortError", "interrupted"⟩)] :=
  c2_cancellation_amended (fun _ => (none : Option (SEvent Nat)))
    (fun _ => (none : Option Nat)) ["m1"] "db-agent" 200 "OK" ""
    [.raised ⟨"AbortError", "interrupted"⟩] [] ⟨"AbortError", "interrupted"⟩
    ⟨"AbortError", "interrupted"⟩ (some "key") none "7" "7" []
    (by decide) (by decide) (by decide) (by decide)

/-- Concatenation of the partial-JSON delta chunks, in order. -/
def joinStrs : List String → String
  | [] => ""
  | s :: ss => s ++ joinStrs ss

theorem modifyLastBlock_append_singleton {α : Type}
    (f : ContentBlock α → ContentBlock α) (bs : List (ContentBlock α))
    (b : ContentBlock α) :
    modifyLastBlock f (bs ++ [b]) = bs ++ [f b] := by
  induction bs with
  | nil => rfl
  | cons x xs ih =>
      cases hx : xs ++ [b] with
      | nil => exact absurd hx (by simp)
      | cons y ys =>
          show modifyLastBlock f (x :: (xs ++ [b])) = x :: (xs ++ [f b])
          rw [hx]
          show x :: modifyLastBlock f (y :: ys) = x :: (xs ++ [f b])
          rw [← hx, ih]

theorem processOrchChunks_append {α : Type} (parse : String → Option α)
    (sessionId : Option String) (nowStop : String) (cs1 cs2 : List (AChunk α))
    (st : OrchState α) :
    processOrchChunks parse sessionId nowStop st (cs1 ++ cs2) =
      ((processOrchChunks parse sessionId nowStop st cs1).1 ++
        (processOrchChunks parse sessionId nowStop
          (processOrchChunks parse sessionId nowStop st cs1).2 cs2).1,
       (processOrchChunks parse sessionId nowStop
          (processOrchChunks parse sessionId nowStop st cs1).2 cs2).2) := by
  induction cs1 generalizing st with
  | nil => simp [processOrchChunks]
  | cons c cs ih =>
      show processOrchChunks parse sessionId nowStop st (c :: (cs ++ cs2)) = _
      simp only [processOrchChunks]
      rw [ih]
      simp [processOrchChunks, List.append_assoc]

theorem jsonDeltas_accumulate {α : Type} (parse : String → Option α)
    (sessionId : Option String) (nowStop : String)
    (cm : Option (OrchMessage α)) (bs : List (ContentBlock α))
    (js : List String) :
    ∀ acc : String,
    processOrchChunks parse sessionId nowStop
        ⟨cm, bs ++ [.toolUse (.str acc)]⟩ (js.map AChunk.jsonDelta) =
      ([], ⟨cm, bs ++ [.toolUse (.str (acc ++ joinStrs js))]⟩) := by
  induction js with
  | nil =>
      intro acc
      simp [processOrchChunks, joinStrs, String.append_empty]
  | cons j js ih =>
      intro acc
      show processOrchChunks parse sessionId nowStop
        ⟨cm, bs ++ [.toolUse (.str acc)]⟩
        (AChunk.jsonDelta j :: js.map AChunk.jsonDelta) = _
      simp only [processOrchChunks]
      have hstep : processOrchChunk parse sessionId nowStop
          ⟨cm, bs ++ [.toolUse (.str acc)]⟩ (AChunk.jsonDelta j) =
          (⟨cm, bs ++ [.toolUse (.str (acc ++ j))]⟩, []) := by
        simp only [processOrchChunk]
        rw [modifyLastBlock_append_singleton]
        rfl
      rw [hstep]
      dsimp only
      rw [ih (acc ++ j)]
      simp [joinStrs, String.append_assoc]

/-- Claim C7: for any partition of a tool-call block's JSON payload into
partial-JSON delta chunks, the orchestrator's accumulator re-assembles the
exact payload, it emits no events while doing so, the parse on block close
yields the structured plan object whenever parsing the payload does, and a
parse failure is non-fatal — the raw string is retained and no event (in
particular no error) is emitted for it. -/
theorem c7_json_delta_roundtrip {α : Type} (parse : String → Option α)
    (sessionId : Option String) (nowStop : String)
    (cm : Option (OrchMessage α)) (bs : List (ContentBlock α))
    (js : List String) (payload : String)
    (hjoin : joinStrs js = payload) :
    (processOrchChunks parse sessionId nowStop
        ⟨cm, bs ++ [.toolUse (.str "")]⟩
        (js.map AChunk.jsonDelta ++ [AChunk.contentBlockStop])).1 = [] ∧
    (∀ plan : α, hasNonWS payload = true → parse payload = some plan →
      (processOrchChunks parse sessionId nowStop
          ⟨cm, bs ++ [.toolUse (.str "")]⟩
          (js.map AChunk.jsonDelta ++ [AChunk.contentBlockStop])).2 =
        ⟨cm, bs ++ [.toolUse (.obj plan)]⟩) ∧
    (parse payload = none →
      (processOrchChunks parse sessionId nowStop
          ⟨cm, bs ++ [.toolUse (.str "")]⟩
          (js.map AChunk.jsonDelta ++ [AChunk.contentBlockStop])).2 =
        ⟨cm, bs ++ [.toolUse (.str payload)]⟩) := by
  have hacc := jsonDeltas_accumulate parse sessionId nowStop cm bs js ""
  rw [String.empty_append, hjoin] at hacc
  have hall := processOrchChunks_append parse sessionId nowStop
    (js.map AChunk.jsonDelta) [AChunk.contentBlockStop]
    ⟨cm, bs ++ [.toolUse (.str "")]⟩
  rw [hacc] at hall
  dsimp only at hall
  have hstop : processOrchChunks parse sessionId nowStop
      ⟨cm, bs ++ [.toolUse (.str payload)]⟩ [AChunk.contentBlockStop] =
      ([], ⟨cm, bs ++ [closeBlock parse (.toolUse (.str payload))]⟩) := by
    simp only [processOrchChunks, processOrchChunk]
    rw [modifyLastBlock_append_singleton]
    rfl
  rw [hstop] at hall
  dsimp only at hall
  refine ⟨?_, ?_, ?_⟩
  · rw [hall]
    rfl
  · intro plan hnws hp
    rw [hall]
    simp [closeBlock, hnws, hp]
  · intro hp
    rw [hall]
    by_cases hnws : hasNonWS payload = true
    · simp [closeBlock, hnws, hp]
    · simp only [closeBlock]
      rw [if_neg hnws]

/-- Concrete plan parser for the C7 witness: `JSON.parse` on the full
payload of a one-step plan. -/
def c7parse : String → Option Nat
  | "\x7b\"steps\":[]\x7d" => some 0
  | _ => none

/-- Witness for C7: the payload `{"steps":[]}` split into single-character
deltas re-assembles and parses to the plan object on block close, with no
events emitted. -/
theorem c7_witness :
    (processOrchChunks c7parse none "0" ⟨none, [ContentBlock.toolUse
        (ToolInput.str "")]⟩
        ((["\x7b", "\"", "s", "t", "e", "p", "s", "\"", ":", "[", "]", "\x7d"].map
          AChunk.jsonDelta) ++ [AChunk.contentBlockStop])).1 = [] ∧
    (processOrchChunks c7parse none "0" ⟨none, [ContentBlock.toolUse
        (ToolInput.str "")]⟩
        ((["\x7b", "\"", "s", "t", "e", "p", "s", "\"", ":", "[", "]", "\x7d"].map
          AChunk.jsonDelta) ++ [AChunk.contentBlockStop])).2 =
      ⟨none, [ContentBlock.toolUse (ToolInput.obj 0)]⟩ := by
  have h := c7_json_delta_roundtrip c7parse none "0" none []
    ["\x7b", "\"", "s", "t", "e", "p", "s", "\"", ":", "[", "]", "\x7d"]
    "\x7b\"steps\":[]\x7d" (by decide)
  exact ⟨h.1, h.2.1 0 (by decide) (by decide)⟩

/-- Model of `process.env` as a partial map from variable names to values. -/
abbrev Env := String → Option String

/-- Model of `process.env[k] = v`. -/
def Env.setVar (e : Env) (k v : String) : Env :=
  fun q => if q = k then some v else e q

/-- Model of `delete process.env[k]`. -/
def Env.delVar (e : Env) (k : String) : Env :=
  fun q => if q = k then none else e q

/-- The `originalEnv` record: insertion-ordered saved values (a value of
`none` records that the variable was unset). -/
abbrev OrigEnv := List (String × Option String)

/-- Model of `originalEnv[key] = value` — JS object assignment: update in place if
the key exists, append otherwise. -/
def origInsert (o : OrigEnv) (k : String) (v : Option String) : OrigEnv :=
  if o.any (fun p => p.1 = k) then
    o.map (fun p => if p.1 = k then (k, v) else p)
  else o ++ [(k, v)]

/-- JS truthiness of an env value: present and non-empty. -/
def jsTruthyVal : Option String → Option String
  | none => none
  | some s => if s = "" then none else some s

/-- Model of `a || b` on env values. -/
def jsOrVal (a b : Option String) : Option String :=
  match jsTruthyVal a with
  | some s => some s
  | none => jsTruthyVal b

/-- The no-OAuth branch: `process.env.ANTHROPIC_API_KEY ||
process.env.CLAUDE_API_KEY`; when truthy, both variables are saved and then
set to it; otherwise nothing is touched. -/
def installApiKey (env : Env) : Env × OrigEnv :=
  match jsOrVal (env "ANTHROPIC_API_KEY") (env "CLAUDE_API_KEY") with
  | some key =>
      (Env.setVar (Env.setVar env "ANTHROPIC_API_KEY" key)
        "CLAUDE_API_KEY" key,
       [("ANTHROPIC_API_KEY", env "ANTHROPIC_API_KEY"),
        ("CLAUDE_API_KEY", env "CLAUDE_API_KEY")])
  | none => (env, [])

/-- The credential phase of `executeClaudeCommand`: with a truthy OAuth
access token, save `CLAUDE_CODE_OAUTH_TOKEN`/`ANTHROPIC_API_KEY`/
`CLAUDE_API_KEY`, set the token and delete both API keys; otherwise the
API-key branch. -/
def installCredentials (env : Env) (claudeAuth : Option ClaudeAuth) :
    Env × OrigEnv :=
  match claudeAuth with
  | some auth =>
      if auth.accessToken ≠ "" then
        (Env.delVar (Env.delVar
            (Env.setVar env "CLAUDE_CODE_OAUTH_TOKEN" auth.accessToken)
            "ANTHROPIC_API_KEY") "CLAUDE_API_KEY",
         [("CLAUDE_CODE_OAUTH_TOKEN", env "CLAUDE_CODE_OAUTH_TOKEN"),
          ("ANTHROPIC_API_KEY", env "ANTHROPIC_API_KEY"),
          ("CLAUDE_API_KEY", env "CLAUDE_API_KEY")])
      else installApiKey env
  | none => installApiKey env

/-- Model of `for (const [key, value] of Object.entries(authEnv)) {
originalEnv[key] = process.env[key]; process.env[key] = value; }` —
note the saved value is the current (possibly already mutated) one. -/
def authLoop (env : Env) (o : OrigEnv) :
    List (String × String) → Env × OrigEnv
  | [] => (env, o)
  | (k, v) :: rest =>
      authLoop (Env.setVar env k v) (origInsert o k (env k)) rest

/-- The `finally` restore loop: each saved entry is written back
(deleted when the saved value was `undefined`). -/
def restoreEnv (env : Env) : OrigEnv → Env
  | [] => env
  | (k, none) :: rest => restoreEnv (Env.delVar env k) rest
  | (k, some v) :: rest => restoreEnv (Env.setVar env k v) rest

/-- The net effect of `executeClaudeCommand` on `process.env`: install the
credential variables and the auth environment, then restore from
`originalEnv` — the restore runs in a `finally`, on every exit path
(completion, error, cancellation) alike. -/
def executeClaudeCommandEnvResult (env : Env)
    (claudeAuth : Option ClaudeAuth) (authEnv : List (String × String)) :
    Env :=
  let p := installCredentials env claudeAuth
  let q := authLoop p.1 p.2 authEnv
  restoreEnv q.1 q.2

/-- The auth environment actually produced for the call: the keys of
`prepareClaudeAuthEnvironment` (credentials path, preload-script debug flag,
NODE_OPTIONS, config dir), with `DEBUG_PRELOAD_SCRIPT` forced to "0" by
`executeClaudeCommand`. -/
def claudeAuthEnvEntries (credPath nodeOpts cfgDir : String) :
    List (String × String) :=
  [("CLAUDE_CREDENTIALS_PATH", credPath),
   ("DEBUG_PRELOAD_SCRIPT", "0"),
   ("NODE_OPTIONS", nodeOpts),
   ("CLAUDE_CONFIG_DIR", cfgDir)]

theorem origInsert_not_mem (o : OrigEnv) (k : String) (v : Option String)
    (h : ∀ p ∈ o, p.1 ≠ k) : origInsert o k v = o ++ [(k, v)] := by
  rw [origInsert, if_neg]
  simp only [List.any_eq_true, not_exists, not_and]
  intro p hp
  simp [h p hp]

theorem restoreEnv_eq (env0 : Env) :
    ∀ (o : OrigEnv) (envCur : Env),
    (o.map Prod.fst).Nodup →
    (∀ p ∈ o, p.2 = env0 p.1) →
    (∀ k, (∀ p ∈ o, p.1 ≠ k) → envCur k = env0 k) →
    ∀ k, restoreEnv envCur o k = env0 k := by
  intro o
  induction o with
  | nil =>
      intro envCur _ _ hoff k
      exact hoff k (by simp)
  | cons p rest ih =>
      rcases p with ⟨k0, v0⟩
      intro envCur hnd hsv hoff k
      have hnd' : (rest.map Prod.fst).Nodup := by
        simpa using hnd.of_cons
      have hsv' : ∀ q ∈ rest, q.2 = env0 q.1 := by
        intro q hq
        exact hsv q (List.mem_cons_of_mem _ hq)
      have hv0 : v0 = env0 k0 := hsv ⟨k0, v0⟩ (by simp)
      have hoff' : ∀ q, (∀ p ∈ rest, p.1 ≠ q) →
          (match v0 with
           | none => Env.delVar envCur k0
           | some v => Env.setVar envCur k0 v) q = env0 q := by
        intro q hq
        by_cases hk : q = k0
        · subst hk
          cases hvv : v0 with
          | none => rw [hvv] at hv0; simp [Env.delVar, ← hv0]
          | some v => rw [hvv] at hv0; simp [Env.setVar, ← hv0]
        · have : envCur q = env0 q := by
            apply hoff
            intro p hp
            rcases List.mem_cons.mp hp with h1 | h2
            · rw [h1]; simpa using fun hh => hk hh.symm
            · exact hq p h2
          cases v0 with
          | none => simpa [Env.delVar, hk] using this
          | some v => simpa [Env.setVar, hk] using this
      cases hvv : v0 with
      | none =>
          rw [hvv] at hoff'
          exact ih (Env.delVar envCur k0) hnd' hsv' (by simpa using hoff') k
      | some v =>
          rw [hvv] at hoff'
          exact ih (Env.setVar envCur k0 v) hnd' hsv' (by simpa using hoff') k

theorem authLoop_inv (env0 : Env) :
    ∀ (ae : List (String × String)) (envCur : Env) (o : OrigEnv),
    (o.map Prod.fst).Nodup →
    (∀ p ∈ o, p.2 = env0 p.1) →
    (∀ k, (∀ p ∈ o, p.1 ≠ k) → envCur k = env0 k) →
    (ae.map Prod.fst).Nodup →
    (∀ kv ∈ ae, ∀ p ∈ o, p.1 ≠ kv.1) →
    ((authLoop envCur o ae).2.map Prod.fst).Nodup ∧
    (∀ p ∈ (authLoop envCur o ae).2, p.2 = env0 p.1) ∧
    (∀ k, (∀ p ∈ (authLoop envCur o ae).2, p.1 ≠ k) →
      (authLoop envCur o ae).1 k = env0 k) := by
  intro ae
  induction ae with
  | nil =>
      intro envCur o hnd hsv hoff _ _
      exact ⟨hnd, hsv, hoff⟩
  | cons kv rest ih =>
      rcases kv with ⟨k, v⟩
      intro envCur o hnd hsv hoff hand hdis
      have hknotin : ∀ p ∈ o, p.1 ≠ k :=
        hdis ⟨k, v⟩ (by simp)
      have ho' : origInsert o k (envCur k) = o ++ [(k, envCur k)] :=
        origInsert_not_mem o k (envCur k) hknotin
      have hcurk : envCur k = env0 k := hoff k hknotin
      simp only [authLoop]
      rw [ho']
      apply ih
      · simp only [List.map_append, List.nodup_append]
        refine ⟨hnd, by simp, ?_⟩
        intro a ha
        simp only [List.map_cons, List.map_nil, List.mem_cons,
          List.not_mem_nil, or_false]
        intro hak
        rcases List.mem_map.mp ha with ⟨p, hp, hpa⟩
        exact hknotin p hp (by rw [hpa, hak])
      · intro p hp
        rcases List.mem_append.mp hp with h1 | h2
        · exact hsv p h1
        · have : p = (k, envCur k) := by simpa using h2
          rw [this]
          simpa using hcurk
      · intro q hq
        have hqk : q ≠ k := by
          have h1 := hq ⟨k, envCur k⟩ (by simp)
          simp only at h1
          exact fun hh => h1 hh.symm
        have hqo : ∀ p ∈ o, p.1 ≠ q := by
          intro p hp
          exact hq p (List.mem_append_left _ hp)
        have : envCur q = env0 q := hoff q hqo
        simpa [Env.setVar, hqk] using this
      · simpa using hand.of_cons
      · intro kv2 hkv2 p hp
        rcases List.mem_append.mp hp with h1 | h2
        · exact hdis kv2 (List.mem_cons_of_mem _ hkv2) p h1
        · have hpk : p = (k, envCur k) := by simpa using h2
          rw [hpk]
          show k ≠ kv2.1
          intro hkk
          have hk2 : kv2.1 ∈ rest.map Prod.fst :=
            List.mem_map.mpr ⟨kv2, hkv2, rfl⟩
          rw [← hkk] at hk2
          have hnm : k ∉ rest.map Prod.fst := by
            have h3 := hand
            simp only [List.map_cons] at h3
            exact h3.not_mem
          exact hnm hk2

theorem installApiKey_inv (env : Env) :
    ((installApiKey env).2.map Prod.fst).Nodup ∧
    (∀ p ∈ (installApiKey env).2, p.2 = env p.1) ∧
    (∀ k, (∀ p ∈ (installApiKey env).2, p.1 ≠ k) →
      (installApiKey env).1 k = env k) ∧
    (∀ p ∈ (installApiKey env).2,
      p.1 = "CLAUDE_CODE_OAUTH_TOKEN" ∨ p.1 = "ANTHROPIC_API_KEY" ∨
        p.1 = "CLAUDE_API_KEY") := by
  unfold installApiKey
  cases hj : jsOrVal (env "ANTHROPIC_API_KEY") (env "CLAUDE_API_KEY") with
  | none => refine ⟨by simp, by simp, fun k _ => rfl, by simp⟩
  | some key =>
      refine ⟨by simp, by simp, ?_, by simp⟩
      intro k hk
      have hA : ¬k = "ANTHROPIC_API_KEY" := by
        have := hk ("ANTHROPIC_API_KEY", env "ANTHROPIC_API_KEY") (by simp)
        simp only at this
        exact fun hh => this hh.symm
      have hC : ¬k = "CLAUDE_API_KEY" := by
        have := hk ("CLAUDE_API_KEY", env "CLAUDE_API_KEY") (by simp)
        simp only at this
        exact fun hh => this hh.symm
      simp [Env.setVar, hA, hC]

theorem installCredentials_inv (env : Env) (ca : Option ClaudeAuth) :
    ((installCredentials env ca).2.map Prod.fst).Nodup ∧
    (∀ p ∈ (installCredentials env ca).2, p.2 = env p.1) ∧
    (∀ k, (∀ p ∈ (installCredentials env ca).2, p.1 ≠ k) →
      (installCredentials env ca).1 k = env k) ∧
    (∀ p ∈ (installCredentials env ca).2,
      p.1 = "CLAUDE_CODE_OAUTH_TOKEN" ∨ p.1 = "ANTHROPIC_API_KEY" ∨
        p.1 = "CLAUDE_API_KEY") := by
  cases ca with
  | none => exact installApiKey_inv env
  | some auth =>
      by_cases ht : auth.accessToken ≠ ""
      · unfold installCredentials
        dsimp only
        rw [if_pos ht]
        refine ⟨by simp, by simp, ?_, by simp⟩
        intro k hk
        have hT : ¬k = "CLAUDE_CODE_OAUTH_TOKEN" := by
          have := hk ("CLAUDE_CODE_OAUTH_TOKEN",
            env "CLAUDE_CODE_OAUTH_TOKEN") (by simp)
          simp only at this
          exact fun hh => this hh.symm
        have hA : ¬k = "ANTHROPIC_API_KEY" := by
          have := hk ("ANTHROPIC_API_KEY", env "ANTHROPIC_API_KEY") (by simp)
          simp only at this
          exact fun hh => this hh.symm
        have hC : ¬k = "CLAUDE_API_KEY" := by
          have := hk ("CLAUDE_API_KEY", env "CLAUDE_API_KEY") (by simp)
          simp only at this
          exact fun hh => this hh.symm
        simp [Env.setVar, Env.delVar, hT, hA, hC]
      · unfold installCredentials
        dsimp only
        rw [if_neg ht]
        exact installApiKey_inv env

/-- Claim C9: the local executor's environment mutation is fully reversed:
for every starting environment, every credential bundle, and every auth
environment whose keys are distinct and distinct from the three credential
variables (true of `prepareClaudeAuthEnvironment`'s keys — credentials
path, preload debug flag, NODE_OPTIONS, config dir), the process
environment after the run equals the environment before it at every
variable, on every exit path. -/
theorem c9_env_restored (env : Env) (claudeAuth : Option ClaudeAuth)
    (authEnv : List (String × String))
    (hnd : (authEnv.map Prod.fst).Nodup)
    (hres : ∀ kv ∈ authEnv, kv.1 ≠ "CLAUDE_CODE_OAUTH_TOKEN" ∧
      kv.1 ≠ "ANTHROPIC_API_KEY" ∧ kv.1 ≠ "CLAUDE_API_KEY") :
    ∀ k, executeClaudeCommandEnvResult env claudeAuth authEnv k = env k := by
  intro k
  unfold executeClaudeCommandEnvResult
  obtain ⟨h1, h2, h3, h4⟩ := installCredentials_inv env claudeAuth
  have hdis : ∀ kv ∈ authEnv, ∀ p ∈ (installCredentials env claudeAuth).2,
      p.1 ≠ kv.1 := by
    intro kv hkv p hp
    rcases h4 p hp with hA | hB | hC
    · rw [hA]; exact fun hh => (hres kv hkv).1 hh.symm
    · rw [hB]; exact fun hh => (hres kv hkv).2.1 hh.symm
    · rw [hC]; exact fun hh => (hres kv hkv).2.2 hh.symm
  have hloop := authLoop_inv env authEnv (installCredentials env claudeAuth).1
    (installCredentials env claudeAuth).2 h1 h2 h3 hnd hdis
  exact restoreEnv_eq env _ _ hloop.1 hloop.2.1 hloop.2.2 k

/-- Concrete starting environment for the C9 witness. -/
def c9env : Env :=
  fun q => if q = "ANTHROPIC_API_KEY" then some "orig-key" else none

/-- Witness for C9: with an OAuth bundle and the real auth-environment
keys, `ANTHROPIC_API_KEY` (deleted during the call) is back to its
original value afterwards. -/
theorem c9_witness :
    executeClaudeCommandEnvResult c9env
        (some ⟨"tok", "refresh", 0⟩)
        (claudeAuthEnvEntries "/home/u/.claude-credentials.json"
          "--require p.cjs" "/home/u/.claude-config")
        "ANTHROPIC_API_KEY" = c9env "ANTHROPIC_API_KEY" :=
  c9_env_restored c9env (some ⟨"tok", "refresh", 0⟩)
    (claudeAuthEnvEntries "/home/u/.claude-credentials.json"
      "--require p.cjs" "/home/u/.claude-config")
    (by decide) (by decide) "ANTHROPIC_API_KEY"
